import Mathlib

/-!
Verification of the rusticl OpenCL frontend core (mesa, gallium/frontends/rusticl).

Shallow embedding of the memory-flag validation, sub-buffer creation, region
overlap arithmetic, rect read/write/copy pitch handling, kernel argument
handling and launch serialization, NDRange enqueue, program binary
deserialization, and the queue worker loop, translated from the Rust sources.
usize values are modelled as Nat (no overflow is relevant on the verified
paths), cl_int as Int, and cl_mem_flags / cl_bitfield (u64) as Nat together
with 64-bit masked bitwise operations.
-/

namespace Rusticl

/-- 3-component vector of usize values (api/types.rs, CLVec of usize). -/
structure CLVec where
  v0 : Nat
  v1 : Nat
  v2 : Nat
deriving DecidableEq, Repr

/-- Componentwise addition (api/types.rs, impl Add for CLVec). -/
def CLVec.add (a b : CLVec) : CLVec :=
  ⟨a.v0 + b.v0, a.v1 + b.v1, a.v2 + b.v2⟩

/-- Dot product against a 3-element weight array
(api/types.rs, impl Mul of an array for CLVec). -/
def CLVec.dot (a : CLVec) (w0 w1 w2 : Nat) : Nat :=
  a.v0 * w0 + a.v1 * w1 + a.v2 * w2

/-- Whether any component is 0 (slice contains of the deref array). -/
def CLVec.contains0 (a : CLVec) : Bool :=
  a.v0 == 0 || a.v1 == 0 || a.v2 == 0

/-! OpenCL constants used by the verified code (rusticl_opencl_gen). -/

def CL_SUCCESS : Int := 0
def CL_INVALID_VALUE : Int := -30
def CL_INVALID_BUFFER_SIZE : Int := -61
def CL_INVALID_MEM_OBJECT : Int := -38
def CL_INVALID_CONTEXT : Int := -34
def CL_INVALID_OPERATION : Int := -59
def CL_MEM_COPY_OVERLAP : Int := -8
def CL_EXEC_STATUS_ERROR_FOR_EVENTS_IN_WAIT_LIST : Int := -14
def CL_INVALID_PROGRAM_EXECUTABLE : Int := -45
def CL_INVALID_KERNEL_ARGS : Int := -52
def CL_INVALID_WORK_DIMENSION : Int := -53
def CL_INVALID_GLOBAL_WORK_SIZE : Int := -63
def CL_INVALID_GLOBAL_OFFSET : Int := -56
def CL_INVALID_WORK_ITEM_SIZE : Int := -55
def CL_INVALID_ARG_INDEX : Int := -49
def CL_INVALID_ARG_VALUE : Int := -50
def CL_INVALID_ARG_SIZE : Int := -51

def CL_MEM_READ_WRITE : Nat := 1
def CL_MEM_WRITE_ONLY : Nat := 2
def CL_MEM_READ_ONLY : Nat := 4
def CL_MEM_USE_HOST_PTR : Nat := 8
def CL_MEM_ALLOC_HOST_PTR : Nat := 16
def CL_MEM_COPY_HOST_PTR : Nat := 32
def CL_MEM_HOST_WRITE_ONLY : Nat := 128
def CL_MEM_HOST_READ_ONLY : Nat := 256
def CL_MEM_HOST_NO_ACCESS : Nat := 512
def CL_MEM_KERNEL_READ_AND_WRITE : Nat := 4096

/-- Bitwise complement on a 64-bit value (the Rust ! operator on u64
masks), as a Nat operation. -/
def not64 (m : Nat) : Nat := (2 ^ 64 - 1) ^^^ m

/-- u64 popcount (count_ones) restricted to the 64 value bits. -/
def count_ones_64 (n : Nat) : Nat :=
  ((List.range 64).filter (fun i => n.testBit i)).length

/-- a & b != 0 (api/util.rs, bit_check). -/
def bit_check (a b : Nat) : Bool := a &&& b != 0

/-- Memory copy overlap test for same-parent buffer copies
(api/util.rs, check_copy_overlap; "Appendix D: Checking for Memory Copy
Overlap"). src_offset and dst_offset are the sub-buffer offsets. The Rust
code computes on usize; on the verified calls region components are
nonzero and pitches are nonzero, so the Nat subtractions and mods agree
with usize arithmetic. -/
def check_copy_overlap (src_origin : CLVec) (src_offset : Nat) (dst_origin : CLVec)
    (dst_offset : Nat) (region : CLVec) (row_pitch slice_pitch : Nat) : Bool :=
  let slice_size := (region.v1 - 1) * row_pitch + region.v0
  let block_size := (region.v2 - 1) * slice_pitch + slice_size
  let src_start :=
    src_origin.v2 * slice_pitch + src_origin.v1 * row_pitch + src_origin.v0 + src_offset
  let src_end := src_start + block_size
  let dst_start :=
    dst_origin.v2 * slice_pitch + dst_origin.v1 * row_pitch + dst_origin.v0 + dst_offset
  let dst_end := dst_start + block_size
  if dst_end ≤ src_start ∨ src_end ≤ dst_start then
    false
  else
    let src_dx := (src_origin.v0 + src_offset) % row_pitch
    let dst_dx := (dst_origin.v0 + dst_offset) % row_pitch
    if (dst_dx ≥ src_dx + region.v0 ∧ dst_dx + region.v0 ≤ src_dx + row_pitch)
        ∨ (src_dx ≥ dst_dx + region.v0 ∧ src_dx + region.v0 ≤ dst_dx + row_pitch) then
      false
    else
      let src_dy := (src_origin.v1 * row_pitch + src_origin.v0 + src_offset) % slice_pitch
      let dst_dy := (dst_origin.v1 * row_pitch + dst_origin.v0 + dst_offset) % slice_pitch
      if (dst_dy ≥ src_dy + slice_size ∧ dst_dy + slice_size ≤ src_dy + slice_pitch)
          ∨ (src_dy ≥ dst_dy + slice_size ∧ src_dy + slice_size ≤ dst_dy + slice_pitch) then
        false
      else
        true

/-- Spec-side test 1, from the spec's words: no overlap if one range entirely
precedes the other in the flattened address space. -/
def spec_flat_precedes (src_origin : CLVec) (src_offset : Nat) (dst_origin : CLVec)
    (dst_offset : Nat) (region : CLVec) (row_pitch slice_pitch : Nat) : Prop :=
  let slice_size := (region.v1 - 1) * row_pitch + region.v0
  let block_size := (region.v2 - 1) * slice_pitch + slice_size
  let src_start :=
    src_origin.v2 * slice_pitch + src_origin.v1 * row_pitch + src_origin.v0 + src_offset
  let dst_start :=
    dst_origin.v2 * slice_pitch + dst_origin.v1 * row_pitch + dst_origin.v0 + dst_offset
  dst_start + block_size ≤ src_start ∨ src_start + block_size ≤ dst_start

/-- Spec-side test 2, from the spec's words: no overlap if the row-local
offset windows cannot intersect within the row pitch. -/
def spec_row_gap (src_origin : CLVec) (src_offset : Nat) (dst_origin : CLVec)
    (dst_offset : Nat) (region : CLVec) (row_pitch : Nat) : Prop :=
  let src_dx := (src_origin.v0 + src_offset) % row_pitch
  let dst_dx := (dst_origin.v0 + dst_offset) % row_pitch
  (dst_dx ≥ src_dx + region.v0 ∧ dst_dx + region.v0 ≤ src_dx + row_pitch)
    ∨ (src_dx ≥ dst_dx + region.v0 ∧ src_dx + region.v0 ≤ dst_dx + row_pitch)

/-- Spec-side test 3, from the spec's words: the same test one dimension up,
for slice-local offsets against the slice pitch. -/
def spec_slice_gap (src_origin : CLVec) (src_offset : Nat) (dst_origin : CLVec)
    (dst_offset : Nat) (region : CLVec) (row_pitch slice_pitch : Nat) : Prop :=
  let slice_size := (region.v1 - 1) * row_pitch + region.v0
  let src_dy := (src_origin.v1 * row_pitch + src_origin.v0 + src_offset) % slice_pitch
  let dst_dy := (dst_origin.v1 * row_pitch + dst_origin.v0 + dst_offset) % slice_pitch
  (dst_dy ≥ src_dy + slice_size ∧ dst_dy + slice_size ≤ src_dy + slice_pitch)
    ∨ (src_dy ≥ dst_dy + slice_size ∧ src_dy + slice_size ≤ dst_dy + slice_pitch)

/-- Both regions separated by more than the region extent in every dimension
(the claim's separation notion; the sub-buffer offsets enter dimension 0 the
same way check_copy_overlap consumes them). -/
def separated_more_than_extent (src_origin : CLVec) (src_offset : Nat) (dst_origin : CLVec)
    (dst_offset : Nat) (region : CLVec) : Prop :=
  (region.v0 < (src_origin.v0 + src_offset) - (dst_origin.v0 + dst_offset)
    ∨ region.v0 < (dst_origin.v0 + dst_offset) - (src_origin.v0 + src_offset))
  ∧ (region.v1 < src_origin.v1 - dst_origin.v1 ∨ region.v1 < dst_origin.v1 - src_origin.v1)
  ∧ (region.v2 < src_origin.v2 - dst_origin.v2 ∨ region.v2 < dst_origin.v2 - src_origin.v2)

/-- A region request whose row window and slice window do not wrap:
the x window fits inside one row pitch and the y window inside one slice
pitch. All real rect-copy layouts satisfy this. -/
def region_fits (origin : CLVec) (offset : Nat) (region : CLVec)
    (row_pitch slice_pitch : Nat) : Prop :=
  origin.v0 + offset + region.v0 ≤ row_pitch
    ∧ (origin.v1 + region.v1) * row_pitch ≤ slice_pitch

/-- Memory flag validation (api/memory.rs, validate_mem_flags). Note the code
groups the host-pointer flags pairwise: {ALLOC, USE} and {COPY, USE}. -/
def validate_mem_flags (flags : Nat) (images : Bool) : Except Int Unit :=
  let valid_flags :=
    CL_MEM_READ_WRITE ||| CL_MEM_WRITE_ONLY ||| CL_MEM_READ_ONLY |||
      CL_MEM_KERNEL_READ_AND_WRITE
  let valid_flags :=
    if images then valid_flags
    else
      valid_flags |||
        (CL_MEM_USE_HOST_PTR ||| CL_MEM_ALLOC_HOST_PTR ||| CL_MEM_COPY_HOST_PTR |||
          CL_MEM_HOST_WRITE_ONLY ||| CL_MEM_HOST_READ_ONLY ||| CL_MEM_HOST_NO_ACCESS)
  let read_write_group := CL_MEM_READ_WRITE ||| CL_MEM_WRITE_ONLY ||| CL_MEM_READ_ONLY
  let alloc_host_group := CL_MEM_ALLOC_HOST_PTR ||| CL_MEM_USE_HOST_PTR
  let copy_host_group := CL_MEM_COPY_HOST_PTR ||| CL_MEM_USE_HOST_PTR
  let host_read_write_group :=
    CL_MEM_HOST_WRITE_ONLY ||| CL_MEM_HOST_READ_ONLY ||| CL_MEM_HOST_NO_ACCESS
  if flags &&& not64 valid_flags ≠ 0
      ∨ count_ones_64 (flags &&& read_write_group) > 1
      ∨ count_ones_64 (flags &&& alloc_host_group) > 1
      ∨ count_ones_64 (flags &&& copy_host_group) > 1
      ∨ count_ones_64 (flags &&& host_read_write_group) > 1 then
    Except.error CL_INVALID_VALUE
  else
    Except.ok ()

/-- Sub-object flag inheritance (api/memory.rs, inherit_mem_flags).
First argument is the requested flags, second the parent object's flags. -/
def inherit_mem_flags (flags : Nat) (memFlags : Nat) : Nat :=
  let read_write_mask :=
    CL_MEM_READ_WRITE ||| CL_MEM_WRITE_ONLY ||| CL_MEM_READ_ONLY |||
      CL_MEM_KERNEL_READ_AND_WRITE
  let host_ptr_mask := CL_MEM_USE_HOST_PTR ||| CL_MEM_ALLOC_HOST_PTR ||| CL_MEM_COPY_HOST_PTR
  let host_mask := CL_MEM_HOST_WRITE_ONLY ||| CL_MEM_HOST_READ_ONLY ||| CL_MEM_HOST_NO_ACCESS
  let flags := if flags &&& read_write_mask = 0 then flags ||| (memFlags &&& read_write_mask)
    else flags
  let flags := (flags &&& not64 host_ptr_mask) ||| (memFlags &&& host_ptr_mask)
  let flags := if flags &&& host_mask = 0 then flags ||| (memFlags &&& host_mask) else flags
  flags

/-- Parent/child flag compatibility (api/memory.rs, validate_matching_buffer_flags).
First argument is the parent object's flags, second the requested flags. -/
def validate_matching_buffer_flags (memFlags flags : Nat) : Except Int Unit :=
  if bit_check memFlags CL_MEM_WRITE_ONLY
        && bit_check flags (CL_MEM_READ_WRITE ||| CL_MEM_READ_ONLY)
      || bit_check memFlags CL_MEM_READ_ONLY
        && bit_check flags (CL_MEM_READ_WRITE ||| CL_MEM_WRITE_ONLY)
      || bit_check flags (CL_MEM_USE_HOST_PTR ||| CL_MEM_ALLOC_HOST_PTR ||| CL_MEM_COPY_HOST_PTR)
      || bit_check memFlags CL_MEM_HOST_WRITE_ONLY && bit_check flags CL_MEM_HOST_READ_ONLY
      || bit_check memFlags CL_MEM_HOST_READ_ONLY && bit_check flags CL_MEM_HOST_WRITE_ONLY
      || bit_check memFlags CL_MEM_HOST_NO_ACCESS
        && bit_check flags (CL_MEM_HOST_READ_ONLY ||| CL_MEM_HOST_WRITE_ONLY) then
    Except.error CL_INVALID_VALUE
  else
    Except.ok ()

/-- The buffer fields of a Mem object that sub-buffer creation consults:
byte size, flags, and whether the object itself is a sub-buffer
(parent.is_some in the source). -/
structure MemModel where
  size : Nat
  flags : Nat
  isSubBuffer : Bool
deriving DecidableEq, Repr

/-- cl_buffer_region. -/
structure BufferRegion where
  origin : Nat
  size : Nat
deriving DecidableEq, Repr

/-- Sub-buffer creation (api/memory.rs, create_sub_buffer). The pointer-typed
buffer_create_info argument is modelled as an Option: none is a null pointer.
createTypeIsRegion is buffer_create_type == CL_BUFFER_CREATE_TYPE_REGION.
On success returns the inherited flags and the (offset, size) region passed
to Mem::new_sub_buffer. -/
def create_sub_buffer (b : MemModel) (flags : Nat) (createTypeIsRegion : Bool)
    (info : Option BufferRegion) : Except Int (Nat × Nat × Nat) :=
  if b.isSubBuffer then Except.error CL_INVALID_MEM_OBJECT
  else
    match validate_matching_buffer_flags b.flags flags with
    | Except.error e => Except.error e
    | Except.ok _ =>
      let flags := inherit_mem_flags flags b.flags
      match validate_mem_flags flags false with
      | Except.error e => Except.error e
      | Except.ok _ =>
        if createTypeIsRegion then
          match info with
          | none => Except.error CL_INVALID_VALUE
          | some region =>
            if region.size = 0 then Except.error CL_INVALID_BUFFER_SIZE
            else if region.origin + region.size > b.size then Except.error CL_INVALID_VALUE
            else Except.ok (flags, region.origin, region.size)
        else Except.error CL_INVALID_VALUE

instance {e a : Type} [DecidableEq e] [DecidableEq a] : DecidableEq (Except e a) := fun x y =>
  match x, y with
  | Except.error u, Except.error v =>
    if h : u = v then Decidable.isTrue (by rw [h]) else Decidable.isFalse (by simp [h])
  | Except.ok u, Except.ok v =>
    if h : u = v then Decidable.isTrue (by rw [h]) else Decidable.isFalse (by simp [h])
  | Except.error _, Except.ok _ => Decidable.isFalse (by simp)
  | Except.ok _, Except.error _ => Decidable.isFalse (by simp)

/-- The overlap predicate reports no overlap exactly when at least one of the
three spec-side tests detects disjointness. -/
theorem check_copy_overlap_eq_false_iff (so : CLVec) (soff : Nat) (dO : CLVec) (doff : Nat)
    (r : CLVec) (rp sp : Nat) :
    check_copy_overlap so soff dO doff r rp sp = false ↔
      (spec_flat_precedes so soff dO doff r rp sp ∨ spec_row_gap so soff dO doff r rp
        ∨ spec_slice_gap so soff dO doff r rp sp) := by
  unfold check_copy_overlap spec_flat_precedes spec_row_gap spec_slice_gap
  dsimp only
  split_ifs with h1 h2 h3 <;> simp_all

/-- s + X never fits back below s for positive X. -/
theorem add_le_self_contra (s X : Nat) (hX : 0 < X) : ¬ s + X ≤ s := by omega

/-- If both windows fit without wrapping and the regions are separated by more
than the extent in every dimension, the flattened ranges are disjoint. -/
theorem separated_fits_flat_precedes (so dO : CLVec) (soff doff : Nat) (r : CLVec)
    (rp sp : Nat) (hr1 : 0 < r.v1) (hr2 : 0 < r.v2)
    (hfs : region_fits so soff r rp sp) (hfd : region_fits dO doff r rp sp)
    (hsep : separated_more_than_extent so soff dO doff r) :
    spec_flat_precedes so soff dO doff r rp sp := by
  obtain ⟨hx, hy, hz⟩ := hsep
  obtain ⟨hfs1, hfs2⟩ := hfs
  obtain ⟨hfd1, hfd2⟩ := hfd
  unfold spec_flat_precedes
  dsimp only
  rcases hz with hz | hz
  · left
    have e3 : dO.v2 + r.v2 ≤ so.v2 := by omega
    calc dO.v2 * sp + dO.v1 * rp + dO.v0 + doff + ((r.v2 - 1) * sp + ((r.v1 - 1) * rp + r.v0))
        = (dO.v2 + (r.v2 - 1)) * sp + ((dO.v1 + (r.v1 - 1)) * rp + (dO.v0 + doff + r.v0)) := by
          ring
      _ ≤ (dO.v2 + (r.v2 - 1)) * sp + ((dO.v1 + (r.v1 - 1)) * rp + rp) := by
          exact Nat.add_le_add_left (Nat.add_le_add_left hfd1 _) _
      _ = (dO.v2 + (r.v2 - 1)) * sp + (dO.v1 + (r.v1 - 1) + 1) * rp := by ring
      _ = (dO.v2 + (r.v2 - 1)) * sp + (dO.v1 + r.v1) * rp := by
          rw [show dO.v1 + (r.v1 - 1) + 1 = dO.v1 + r.v1 by omega]
      _ ≤ (dO.v2 + (r.v2 - 1)) * sp + sp := Nat.add_le_add_left hfd2 _
      _ = (dO.v2 + (r.v2 - 1) + 1) * sp := by ring
      _ = (dO.v2 + r.v2) * sp := by rw [show dO.v2 + (r.v2 - 1) + 1 = dO.v2 + r.v2 by omega]
      _ ≤ so.v2 * sp := Nat.mul_le_mul_right sp e3
      _ ≤ so.v2 * sp + so.v1 * rp + so.v0 + soff :=
          ((Nat.le_add_right _ _).trans (Nat.le_add_right _ _)).trans (Nat.le_add_right _ _)
  · right
    have e3 : so.v2 + r.v2 ≤ dO.v2 := by omega
    calc so.v2 * sp + so.v1 * rp + so.v0 + soff + ((r.v2 - 1) * sp + ((r.v1 - 1) * rp + r.v0))
        = (so.v2 + (r.v2 - 1)) * sp + ((so.v1 + (r.v1 - 1)) * rp + (so.v0 + soff + r.v0)) := by
          ring
      _ ≤ (so.v2 + (r.v2 - 1)) * sp + ((so.v1 + (r.v1 - 1)) * rp + rp) := by
          exact Nat.add_le_add_left (Nat.add_le_add_left hfs1 _) _
      _ = (so.v2 + (r.v2 - 1)) * sp + (so.v1 + (r.v1 - 1) + 1) * rp := by ring
      _ = (so.v2 + (r.v2 - 1)) * sp + (so.v1 + r.v1) * rp := by
          rw [show so.v1 + (r.v1 - 1) + 1 = so.v1 + r.v1 by omega]
      _ ≤ (so.v2 + (r.v2 - 1)) * sp + sp := Nat.add_le_add_left hfs2 _
      _ = (so.v2 + (r.v2 - 1) + 1) * sp := by ring
      _ = (so.v2 + r.v2) * sp := by rw [show so.v2 + (r.v2 - 1) + 1 = so.v2 + r.v2 by omega]
      _ ≤ dO.v2 * sp := Nat.mul_le_mul_right sp e3
      _ ≤ dO.v2 * sp + dO.v1 * rp + dO.v0 + doff :=
          ((Nat.le_add_right _ _).trans (Nat.le_add_right _ _)).trans (Nat.le_add_right _ _)

/-- C2 (amended): check_copy_overlap reports no overlap exactly when at least
one of the three tests detects disjointness (flattened ranges disjoint, row
windows disjoint within the row pitch, slice windows disjoint within the
slice pitch), so overlap is reported exactly when all three tests fail; two
identical same-parent regions at the same origin report overlap; and two
non-wrapping regions separated by more than the region extent in every
dimension report no overlap. -/
theorem C2_check_copy_overlap (so : CLVec) (soff : Nat) (dO : CLVec) (doff : Nat)
    (r : CLVec) (rp sp : Nat) (h0 : 0 < r.v0) (h1 : 0 < r.v1) (h2 : 0 < r.v2)
    (hrp : 0 < rp) (hsp : 0 < sp) :
    (check_copy_overlap so soff dO doff r rp sp = false ↔
      (spec_flat_precedes so soff dO doff r rp sp ∨ spec_row_gap so soff dO doff r rp
        ∨ spec_slice_gap so soff dO doff r rp sp))
    ∧ check_copy_overlap so soff so soff r rp sp = true
    ∧ (region_fits so soff r rp sp → region_fits dO doff r rp sp →
        separated_more_than_extent so soff dO doff r →
        check_copy_overlap so soff dO doff r rp sp = false) := by
  refine ⟨check_copy_overlap_eq_false_iff so soff dO doff r rp sp, ?_, ?_⟩
  · cases hval : check_copy_overlap so soff so soff r rp sp with
    | true => rfl
    | false =>
      exfalso
      rcases (check_copy_overlap_eq_false_iff so soff so soff r rp sp).mp hval with h | h | h
      · unfold spec_flat_precedes at h
        dsimp only at h
        have hpos : 0 < (r.v2 - 1) * sp + ((r.v1 - 1) * rp + r.v0) :=
          h0.trans_le ((Nat.le_add_left _ _).trans (Nat.le_add_left _ _))
        rcases h with h | h <;> exact add_le_self_contra _ _ hpos h
      · unfold spec_row_gap at h
        dsimp only at h
        rcases h with h | h <;> exact add_le_self_contra _ _ h0 h.1
      · unfold spec_slice_gap at h
        dsimp only at h
        have hpos : 0 < (r.v1 - 1) * rp + r.v0 := h0.trans_le (Nat.le_add_left _ _)
        rcases h with h | h <;> exact add_le_self_contra _ _ hpos h.1
  · intro hfs hfd hsep
    exact (check_copy_overlap_eq_false_iff so soff dO doff r rp sp).mpr
      (Or.inl (separated_fits_flat_precedes so dO soff doff r rp sp h1 h2 hfs hfd hsep))

/-- C2 counterexample: src origin (0,0,2) and dst origin (8,3,0) with region
(4,2,1), row pitch 10 and slice pitch 20 are separated by more than the
region extent in every dimension, yet check_copy_overlap reports overlap
(and indeed the two byte ranges truly alias, e.g. at byte 40). -/
theorem C2_counterexample :
    separated_more_than_extent ⟨0, 0, 2⟩ 0 ⟨8, 3, 0⟩ 0 ⟨4, 2, 1⟩
    ∧ check_copy_overlap ⟨0, 0, 2⟩ 0 ⟨8, 3, 0⟩ 0 ⟨4, 2, 1⟩ 10 20 = true := by
  constructor
  · unfold separated_more_than_extent
    refine ⟨Or.inr ?_, Or.inr ?_, Or.inl ?_⟩ <;> decide
  · decide

/-- C2 witness: the theorem applied at the identical-regions instance
origin (0,0,0), region (1,1,1), pitches 1. -/
theorem C2_witness : check_copy_overlap ⟨0, 0, 0⟩ 0 ⟨0, 0, 0⟩ 0 ⟨1, 1, 1⟩ 1 1 = true :=
  (C2_check_copy_overlap ⟨0, 0, 0⟩ 0 ⟨0, 0, 0⟩ 0 ⟨1, 1, 1⟩ 1 1 (by decide) (by decide)
    (by decide) (by decide) (by decide)).2.1

/-- A cl_mem_flags value assembled from the nine documented buffer flag bits. -/
def mem_flags_of (bRW bWO bRO bUSE bALLOC bCOPY bHWO bHRO bHNA : Bool) : Nat :=
  (cond bRW CL_MEM_READ_WRITE 0) ||| (cond bWO CL_MEM_WRITE_ONLY 0) |||
    (cond bRO CL_MEM_READ_ONLY 0) ||| (cond bUSE CL_MEM_USE_HOST_PTR 0) |||
    (cond bALLOC CL_MEM_ALLOC_HOST_PTR 0) ||| (cond bCOPY CL_MEM_COPY_HOST_PTR 0) |||
    (cond bHWO CL_MEM_HOST_WRITE_ONLY 0) ||| (cond bHRO CL_MEM_HOST_READ_ONLY 0) |||
    (cond bHNA CL_MEM_HOST_NO_ACCESS 0)

/-- How many of three flags are set. -/
def bool_count3 (x y z : Bool) : Nat := (cond x 1 0) + (cond y 1 0) + (cond z 1 0)

/-- C3 counterexample: CL_MEM_ALLOC_HOST_PTR together with CL_MEM_COPY_HOST_PTR
sets two flags of the host-pointer-origin group, yet validate_mem_flags
accepts the combination (the code only pairs each of them against
CL_MEM_USE_HOST_PTR). -/
theorem C3_counterexample :
    validate_mem_flags (CL_MEM_ALLOC_HOST_PTR ||| CL_MEM_COPY_HOST_PTR) false = Except.ok ()
    ∧ count_ones_64 ((CL_MEM_ALLOC_HOST_PTR ||| CL_MEM_COPY_HOST_PTR) &&&
        (CL_MEM_USE_HOST_PTR ||| CL_MEM_ALLOC_HOST_PTR ||| CL_MEM_COPY_HOST_PTR)) = 2 := by
  constructor <;> decide

/-- C3 (amended): over the nine documented buffer flag bits,
validate_mem_flags accepts exactly the combinations with at most one
read/write-access flag, at most one host-access flag, and in the
host-pointer-origin group no pairing of CL_MEM_USE_HOST_PTR with
CL_MEM_ALLOC_HOST_PTR or CL_MEM_COPY_HOST_PTR; in particular
CL_MEM_ALLOC_HOST_PTR + CL_MEM_COPY_HOST_PTR is accepted, every other
two-or-more same-group combination is rejected with CL_INVALID_VALUE. -/
theorem C3_validate_mem_flags :
    ∀ bRW bWO bRO bUSE bALLOC bCOPY bHWO bHRO bHNA : Bool,
      validate_mem_flags (mem_flags_of bRW bWO bRO bUSE bALLOC bCOPY bHWO bHRO bHNA) false =
          Except.ok () ↔
        (bool_count3 bRW bWO bRO ≤ 1 ∧ (bUSE && bALLOC) = false ∧ (bUSE && bCOPY) = false ∧
          bool_count3 bHWO bHRO bHNA ≤ 1) := by decide

/-- C3 witness: the theorem applied at CL_MEM_READ_WRITE + CL_MEM_USE_HOST_PTR
+ CL_MEM_HOST_WRITE_ONLY, one flag per group. -/
theorem C3_witness :
    validate_mem_flags (mem_flags_of true false false true false false true false false) false =
      Except.ok () :=
  (C3_validate_mem_flags true false false true false false true false false).mpr (by decide)

/-- Conjunction distributes bitwise-and over bitwise-or on Nat. -/
theorem land_lor_distrib_right (a b m : Nat) : (a ||| b) &&& m = (a &&& m) ||| (b &&& m) := by
  apply Nat.eq_of_testBit_eq
  intro i
  simp [Nat.testBit_land, Nat.testBit_lor, Bool.and_or_distrib_right]

/-- C8 counterexample: parent flags CL_MEM_READ_WRITE, requested flags
CL_MEM_KERNEL_READ_AND_WRITE. The request is accepted by sub-buffer
creation, its {CL_MEM_READ_WRITE, CL_MEM_WRITE_ONLY, CL_MEM_READ_ONLY}
group is zero, yet the resulting flags do not inherit the parent's
CL_MEM_READ_WRITE: the code's inheritance mask also contains
CL_MEM_KERNEL_READ_AND_WRITE, which suppresses the inheritance. -/
theorem C8_counterexample :
    validate_matching_buffer_flags CL_MEM_READ_WRITE CL_MEM_KERNEL_READ_AND_WRITE = Except.ok ()
    ∧ validate_mem_flags (inherit_mem_flags CL_MEM_KERNEL_READ_AND_WRITE CL_MEM_READ_WRITE)
        false = Except.ok ()
    ∧ CL_MEM_KERNEL_READ_AND_WRITE &&&
        (CL_MEM_READ_WRITE ||| CL_MEM_WRITE_ONLY ||| CL_MEM_READ_ONLY) = 0
    ∧ ¬(inherit_mem_flags CL_MEM_KERNEL_READ_AND_WRITE CL_MEM_READ_WRITE &&&
          (CL_MEM_READ_WRITE ||| CL_MEM_WRITE_ONLY ||| CL_MEM_READ_ONLY) =
        CL_MEM_READ_WRITE &&& (CL_MEM_READ_WRITE ||| CL_MEM_WRITE_ONLY ||| CL_MEM_READ_ONLY)) := by
  refine ⟨by decide, by decide, by decide, by decide⟩

/-- C8 (amended): for every requested flags R and parent flags F, the
inherited flags G satisfy: within the read/write group extended by
CL_MEM_KERNEL_READ_AND_WRITE, G agrees with R when R sets any flag of that
group and with F otherwise; the host-pointer-origin group of G always
equals F's; and the host-access group of G agrees with R when R sets any
flag of it and with F otherwise. -/
theorem C8_inherit_mem_flags (R F : Nat) :
    (inherit_mem_flags R F &&&
        (CL_MEM_READ_WRITE ||| CL_MEM_WRITE_ONLY ||| CL_MEM_READ_ONLY |||
          CL_MEM_KERNEL_READ_AND_WRITE) =
      if R &&& (CL_MEM_READ_WRITE ||| CL_MEM_WRITE_ONLY ||| CL_MEM_READ_ONLY |||
          CL_MEM_KERNEL_READ_AND_WRITE) = 0 then
        F &&& (CL_MEM_READ_WRITE ||| CL_MEM_WRITE_ONLY ||| CL_MEM_READ_ONLY |||
          CL_MEM_KERNEL_READ_AND_WRITE)
      else
        R &&& (CL_MEM_READ_WRITE ||| CL_MEM_WRITE_ONLY ||| CL_MEM_READ_ONLY |||
          CL_MEM_KERNEL_READ_AND_WRITE))
    ∧ (inherit_mem_flags R F &&&
          (CL_MEM_USE_HOST_PTR ||| CL_MEM_ALLOC_HOST_PTR ||| CL_MEM_COPY_HOST_PTR) =
        F &&& (CL_MEM_USE_HOST_PTR ||| CL_MEM_ALLOC_HOST_PTR ||| CL_MEM_COPY_HOST_PTR))
    ∧ (inherit_mem_flags R F &&&
          (CL_MEM_HOST_WRITE_ONLY ||| CL_MEM_HOST_READ_ONLY ||| CL_MEM_HOST_NO_ACCESS) =
        if R &&& (CL_MEM_HOST_WRITE_ONLY ||| CL_MEM_HOST_READ_ONLY ||| CL_MEM_HOST_NO_ACCESS)
            = 0 then
          F &&& (CL_MEM_HOST_WRITE_ONLY ||| CL_MEM_HOST_READ_ONLY ||| CL_MEM_HOST_NO_ACCESS)
        else
          R &&& (CL_MEM_HOST_WRITE_ONLY ||| CL_MEM_HOST_READ_ONLY ||| CL_MEM_HOST_NO_ACCESS)) := by
  simp only [inherit_mem_flags, CL_MEM_READ_WRITE, CL_MEM_WRITE_ONLY, CL_MEM_READ_ONLY,
    CL_MEM_KERNEL_READ_AND_WRITE, CL_MEM_USE_HOST_PTR, CL_MEM_ALLOC_HOST_PTR,
    CL_MEM_COPY_HOST_PTR, CL_MEM_HOST_WRITE_ONLY, CL_MEM_HOST_READ_ONLY, CL_MEM_HOST_NO_ACCESS,
    show (1 : Nat) ||| 2 ||| 4 ||| 4096 = 4103 from by decide,
    show (8 : Nat) ||| 16 ||| 32 = 56 from by decide,
    show (128 : Nat) ||| 256 ||| 512 = 896 from by decide,
    show not64 56 = 18446744073709551559 from by decide]
  by_cases hR : R &&& 4103 = 0 <;>
    by_cases hHa : R &&& 896 = 0 <;>
      simp [hR, hHa, land_lor_distrib_right, Nat.land_assoc,
        show (18446744073709551559 : Nat) &&& 4103 = 4103 from by decide,
        show (18446744073709551559 : Nat) &&& 896 = 896 from by decide,
        show (18446744073709551559 : Nat) &&& 56 = 0 from by decide,
        show (56 : Nat) &&& 4103 = 0 from by decide,
        show (56 : Nat) &&& 896 = 0 from by decide,
        show (56 : Nat) &&& 56 = 56 from by decide,
        show (4103 : Nat) &&& 896 = 0 from by decide,
        show (4103 : Nat) &&& 4103 = 4103 from by decide,
        show (4103 : Nat) &&& 56 = 0 from by decide,
        show (896 : Nat) &&& 896 = 896 from by decide,
        show (896 : Nat) &&& 4103 = 0 from by decide,
        show (896 : Nat) &&& 56 = 0 from by decide]

/-- C9: on a root buffer of size S with flags CL_MEM_READ_WRITE and a
sub-buffer request with flags 0: a zero-size region is rejected with
CL_INVALID_BUFFER_SIZE, a region with origin + size exceeding S is rejected
with CL_INVALID_VALUE, and a region with origin + size within S (the
boundary included) is accepted with the parent's CL_MEM_READ_WRITE
inherited. -/
theorem C9_create_sub_buffer (S origin sz : Nat) :
    (create_sub_buffer ⟨S, CL_MEM_READ_WRITE, false⟩ 0 true (some ⟨origin, 0⟩) =
        Except.error CL_INVALID_BUFFER_SIZE)
    ∧ (0 < sz → S < origin + sz →
        create_sub_buffer ⟨S, CL_MEM_READ_WRITE, false⟩ 0 true (some ⟨origin, sz⟩) =
          Except.error CL_INVALID_VALUE)
    ∧ (0 < sz → origin + sz ≤ S →
        create_sub_buffer ⟨S, CL_MEM_READ_WRITE, false⟩ 0 true (some ⟨origin, sz⟩) =
          Except.ok (CL_MEM_READ_WRITE, origin, sz)) := by
  have hv1 : validate_matching_buffer_flags CL_MEM_READ_WRITE 0 = Except.ok () := by decide
  have hv2 : inherit_mem_flags 0 CL_MEM_READ_WRITE = CL_MEM_READ_WRITE := by decide
  have hv3 : validate_mem_flags CL_MEM_READ_WRITE false = Except.ok () := by decide
  have hred : ∀ o z, create_sub_buffer ⟨S, CL_MEM_READ_WRITE, false⟩ 0 true (some ⟨o, z⟩) =
      (if z = 0 then Except.error CL_INVALID_BUFFER_SIZE
       else if o + z > S then Except.error CL_INVALID_VALUE
       else Except.ok (CL_MEM_READ_WRITE, o, z)) := by
    intro o z
    simp only [create_sub_buffer, hv1, hv2, hv3]
    rfl
  refine ⟨?_, ?_, ?_⟩
  · rw [hred]
    simp
  · intro h1 h2
    rw [hred, if_neg (by omega), if_pos (by omega)]
  · intro h1 h2
    rw [hred, if_neg (by omega), if_neg (by omega)]

/-- C9 witness: parent size 1024, origin 512: size 256 and the exact
boundary size 512 are accepted inheriting CL_MEM_READ_WRITE, size 513
(end 1025) is rejected. -/
theorem C9_witness :
    create_sub_buffer ⟨1024, CL_MEM_READ_WRITE, false⟩ 0 true (some ⟨512, 256⟩) =
        Except.ok (CL_MEM_READ_WRITE, 512, 256)
    ∧ create_sub_buffer ⟨1024, CL_MEM_READ_WRITE, false⟩ 0 true (some ⟨512, 512⟩) =
        Except.ok (CL_MEM_READ_WRITE, 512, 512)
    ∧ create_sub_buffer ⟨1024, CL_MEM_READ_WRITE, false⟩ 0 true (some ⟨512, 513⟩) =
        Except.error CL_INVALID_VALUE :=
  ⟨(C9_create_sub_buffer 1024 512 256).2.2 (by decide) (by decide),
   (C9_create_sub_buffer 1024 512 512).2.2 (by decide) (by decide),
   (C9_create_sub_buffer 1024 512 513).2.1 (by decide) (by decide)⟩

/-! NDRange kernel enqueue (api/kernel.rs, enqueue_ndrange_kernel). -/

/-- The closure attached to the enqueued event: either the trivially
succeeding closure (the source's boxed |_| Ok(()), which never touches
Kernel::launch or any backend entry point), or the retained launch closure
with its captured parameters. -/
inductive EnqClosure
  | trivial
  | launch (work_dim : Nat) (block grid offsets : List Nat)
deriving DecidableEq, Repr

/-- The inputs of enqueue_ndrange_kernel after handle resolution. Foreign
parts are abstracted: ctx_match is q.context == k.prog.context,
build_success is the program build status check for q.device,
all_args_set is whether every kernel argument value is set. Work arrays are
none for null pointers, otherwise the pointed-to memory. -/
structure NdrangeInput where
  ctx_match : Bool
  build_success : Bool
  all_args_set : Bool
  work_dim : Nat
  max_grid_dimensions : Nat
  address_bits : Nat
  max_block_sizes : List Nat
  global_work_offset : Option (List Nat)
  global_work_size : Option (List Nat)
  local_work_size : Option (List Nat)
deriving DecidableEq, Repr

/-- api/kernel.rs, checked_kernel_work_arr: a null pointer yields the static
three-zero array, otherwise the first work_dim elements are read. -/
def checked_kernel_work_arr (arr : Option (List Nat)) (work_dim : Nat) : List Nat :=
  match arr with
  | some l => l.take work_dim
  | none => [0, 0, 0]

/-- Rust Iterator::gt, the lexicographic comparison used for the
local-work-size limit check. -/
def iter_gt : List Nat → List Nat → Bool
  | [], [] => false
  | [], _ :: _ => false
  | _ :: _, [] => true
  | x :: xs, y :: ys => if x > y then true else if x < y then false else iter_gt xs ys

/-- The 32-bit-device loop over zipped global sizes and offsets: first
offending pair reports its error. -/
def check_32bit : List (Nat × Nat) → Option Int
  | [] => none
  | (s, o) :: rest =>
    if s > 4294967295 then some CL_INVALID_GLOBAL_WORK_SIZE
    else if s + o > 4294967295 then some CL_INVALID_GLOBAL_OFFSET
    else check_32bit rest

/-- api/kernel.rs, enqueue_ndrange_kernel: the synchronous request-shape
validation and the choice of the event closure. -/
def enqueue_ndrange_kernel (inp : NdrangeInput) : Except Int EnqClosure :=
  if !inp.ctx_match then Except.error CL_INVALID_CONTEXT
  else if !inp.build_success then Except.error CL_INVALID_PROGRAM_EXECUTABLE
  else if !inp.all_args_set then Except.error CL_INVALID_KERNEL_ARGS
  else if inp.work_dim = 0 ∨ inp.work_dim > inp.max_grid_dimensions then
    Except.error CL_INVALID_WORK_DIMENSION
  else
    let global_work_size := checked_kernel_work_arr inp.global_work_size inp.work_dim
    let local_work_size := checked_kernel_work_arr inp.local_work_size inp.work_dim
    let global_work_offset := checked_kernel_work_arr inp.global_work_offset inp.work_dim
    match (if inp.address_bits = 32 then check_32bit (global_work_size.zip global_work_offset)
        else none) with
    | some e => Except.error e
    | none =>
      if iter_gt local_work_size inp.max_block_sizes then Except.error CL_INVALID_WORK_ITEM_SIZE
      else if global_work_size.contains 0 then Except.ok EnqClosure.trivial
      else
        Except.ok (EnqClosure.launch inp.work_dim local_work_size global_work_size
          global_work_offset)

/-- C5: a kernel-launch enqueue that passes the synchronous request-shape
validation and whose requested global work size contains a zero component
carries the trivially succeeding closure, not the launch closure built by
Kernel::launch. -/
theorem C5_zero_gws_trivial (inp : NdrangeInput)
    (h : ∃ c, enqueue_ndrange_kernel inp = Except.ok c)
    (hz : (checked_kernel_work_arr inp.global_work_size inp.work_dim).contains 0 = true) :
    enqueue_ndrange_kernel inp = Except.ok EnqClosure.trivial := by
  obtain ⟨c, h⟩ := h
  unfold enqueue_ndrange_kernel at h ⊢
  dsimp only at h ⊢
  by_cases h1 : (!inp.ctx_match) = true
  · rw [if_pos h1] at h
    exact absurd h (by simp)
  · rw [if_neg h1] at h ⊢
    by_cases h2 : (!inp.build_success) = true
    · rw [if_pos h2] at h
      exact absurd h (by simp)
    · rw [if_neg h2] at h ⊢
      by_cases h3 : (!inp.all_args_set) = true
      · rw [if_pos h3] at h
        exact absurd h (by simp)
      · rw [if_neg h3] at h ⊢
        by_cases h4 : inp.work_dim = 0 ∨ inp.work_dim > inp.max_grid_dimensions
        · rw [if_pos h4] at h
          exact absurd h (by simp)
        · rw [if_neg h4] at h ⊢
          cases hm : (if inp.address_bits = 32 then
              check_32bit ((checked_kernel_work_arr inp.global_work_size inp.work_dim).zip
                (checked_kernel_work_arr inp.global_work_offset inp.work_dim))
            else none) with
          | some e =>
            rw [hm] at h
            simp at h
          | none =>
            rw [hm] at h
            dsimp only at h ⊢
            by_cases hlex : iter_gt (checked_kernel_work_arr inp.local_work_size inp.work_dim)
                inp.max_block_sizes = true
            · rw [if_pos hlex] at h
              exact absurd h (by simp)
            · rw [if_neg hlex] at h ⊢
              rw [if_pos hz] at h ⊢

/-- C5 witness: work_dim 1, global size [0], local size [1], 64-bit device,
all validation satisfied. -/
theorem C5_witness :
    enqueue_ndrange_kernel ⟨true, true, true, 1, 3, 64, [1024, 1024, 1024], none, some [0],
        some [1]⟩ = Except.ok EnqClosure.trivial :=
  C5_zero_gws_trivial _ ⟨EnqClosure.trivial, by decide⟩ (by decide)

/-! Program binary deserialization (core/program.rs, Program::from_bins). -/

def CL_BUILD_SUCCESS : Int := 0

/-- One device's build record as constructed by from_bins. -/
structure DevBuild where
  bin_type : Nat
  spirv : List Nat
  status : Int
deriving DecidableEq, Repr

/-- Little-endian u32 read at byte offset i (ptr.cast to u32 and read on the
little-endian targets the serializer writes on). -/
def read_u32_le (b : List Nat) (i : Nat) : Nat :=
  b.getD i 0 + 256 * b.getD (i + 1) 0 + 65536 * b.getD (i + 2) 0 + 16777216 * b.getD (i + 3) 0

/-- Header size of the version-1 format: version, payload length and
binary type, 4 bytes each. -/
def BIN_HEADER_SIZE_V1 : Nat := 12

/-- The per-binary body of Program::from_bins. Both panics of the source (the
unknown-version arm and the length assert) are modelled as none: neither
path constructs a build record. On success the record carries the
binary-type tag, the payload bytes, and build status CL_BUILD_SUCCESS. -/
def parse_bin (b : List Nat) : Option DevBuild :=
  let version := read_u32_le b 0
  if version = 1 then
    let spirv_size := read_u32_le b 4
    let bin_type := read_u32_le b 8
    if b.length = BIN_HEADER_SIZE_V1 + spirv_size then
      some ⟨bin_type, (b.drop BIN_HEADER_SIZE_V1).take spirv_size, CL_BUILD_SUCCESS⟩
    else none
  else none

/-- Program::from_bins over the per-device binaries, the source's loop over
devs.iter().zip(bins): every binary must parse for the program object to be
constructed. -/
def from_bins : List (List Nat) → Option (List DevBuild)
  | [] => some []
  | b :: rest =>
    match parse_bin b with
    | none => none
    | some rcd =>
      match from_bins rest with
      | none => none
      | some t => some (rcd :: t)

/-- from_bins fails as soon as one binary fails to parse. -/
theorem from_bins_none_of_mem :
    ∀ (bins : List (List Nat)) (b : List Nat), b ∈ bins → parse_bin b = none →
      from_bins bins = none := by
  intro bins
  induction bins with
  | nil => intro b hb; cases hb
  | cons a t ih =>
    intro b hb hpb
    rcases List.mem_cons.mp hb with rfl | hb
    · simp [from_bins, hpb]
    · cases hpa : parse_bin a
      · simp [from_bins, hpa]
      · simp [from_bins, hpa, ih b hb hpb]

/-- C10: parse_bin accepts only version-1 binaries; on success the binary
consists of the 12-byte header followed by exactly payload-length bytes
which become the record's artifact, with the binary-type tag taken from the
header; a binary with any other version never yields a build record, and
from_bins fails outright if any binary has an unknown version. -/
theorem C10_from_bins :
    (∀ (b : List Nat) (rec : DevBuild), parse_bin b = some rec →
      read_u32_le b 0 = 1
      ∧ b.length = BIN_HEADER_SIZE_V1 + read_u32_le b 4
      ∧ rec.bin_type = read_u32_le b 8
      ∧ rec.spirv = (b.drop BIN_HEADER_SIZE_V1).take (read_u32_le b 4)
      ∧ rec.status = CL_BUILD_SUCCESS)
    ∧ (∀ b : List Nat, read_u32_le b 0 ≠ 1 → parse_bin b = none)
    ∧ (∀ (bins : List (List Nat)) (b : List Nat), b ∈ bins → read_u32_le b 0 ≠ 1 →
        from_bins bins = none) := by
  refine ⟨?_, ?_, ?_⟩
  · intro b rec h
    unfold parse_bin at h
    dsimp only at h
    split_ifs at h with hv hl
    injection h with h
    subst h
    exact ⟨hv, hl, rfl, rfl, rfl⟩
  · intro b hv
    unfold parse_bin
    dsimp only
    rw [if_neg hv]
  · intro bins b hb hv
    apply from_bins_none_of_mem bins b hb
    unfold parse_bin
    dsimp only
    rw [if_neg hv]

/-- C10 witness: a well-formed version-1 binary with a 2-byte payload parses
to its build record, and a version-2 binary is rejected alone and within a
binary list. -/
theorem C10_witness :
    read_u32_le [1, 0, 0, 0, 2, 0, 0, 0, 4, 0, 0, 0, 9, 9] 0 = 1
    ∧ [1, 0, 0, 0, 2, 0, 0, 0, 4, 0, 0, 0, 9, 9].length =
        BIN_HEADER_SIZE_V1 + read_u32_le [1, 0, 0, 0, 2, 0, 0, 0, 4, 0, 0, 0, 9, 9] 4
    ∧ parse_bin [2, 0, 0, 0] = none
    ∧ from_bins [[2, 0, 0, 0]] = none :=
  ⟨(C10_from_bins.1 [1, 0, 0, 0, 2, 0, 0, 0, 4, 0, 0, 0, 9, 9] ⟨4, [9, 9], 0⟩ (by decide)).1,
   (C10_from_bins.1 [1, 0, 0, 0, 2, 0, 0, 0, 4, 0, 0, 0, 9, 9] ⟨4, [9, 9], 0⟩ (by decide)).2.1,
   C10_from_bins.2.1 [2, 0, 0, 0] (by decide),
   C10_from_bins.2.2 [[2, 0, 0, 0]] [2, 0, 0, 0] (by simp) (by decide)⟩

/-! Kernel arguments: set_kernel_arg (api/kernel.rs) and the input-buffer
serialization loop of Kernel::launch (core/kernel.rs). -/

/-- core/kernel.rs, KernelArgType. -/
inductive KernelArgType
  | Constant
  | Sampler
  | MemGlobal
  | MemConstant
  | MemLocal
deriving DecidableEq, Repr

/-- core/kernel.rs, KernelArg: the per-argument metadata (kind, declared
byte size, resolved offset, liveness). -/
structure KernelArg where
  kind : KernelArgType
  size : Nat
  offset : Nat
  dead : Bool
deriving DecidableEq, Repr

/-- core/kernel.rs, KernelArgValue. A memObject carries the captured mem
offset written into the input buffer; sampler values carry no payload here. -/
inductive KernelArgValue
  | none
  | constant (bytes : List Nat)
  | memObject (memOffset : Nat)
  | localMem (size : Nat)
  | sampler
deriving DecidableEq, Repr

/-- The arg_value pointer of clSetKernelArg: possibly null; bytes is the
memory readable at it for value-constant arguments; memRef is the cl_mem
handle stored at it for memory-object arguments (none = null handle, some o
= a live mem object whose captured offset is o). Handle validity beyond
null-ness is outside the model. -/
structure ArgPtr where
  isNull : Bool
  bytes : List Nat
  memRef : Option Nat
deriving DecidableEq, Repr

/-- The size validation of set_kernel_arg: local-memory arguments reject a
zero requested size, all other kinds reject a size differing from the
declared size. -/
def arg_size_bad (arg : KernelArg) (arg_size : Nat) : Bool :=
  match arg.kind with
  | KernelArgType.MemLocal => arg_size == 0
  | _ => arg.size != arg_size

/-- The value-pointer validation of set_kernel_arg: local-memory arguments
require a null pointer, value-constant and sampler arguments a non-null
one. -/
def arg_value_bad (arg : KernelArg) (arg_value : ArgPtr) : Bool :=
  match arg.kind with
  | KernelArgType.MemLocal => !arg_value.isNull
  | KernelArgType.Constant => arg_value.isNull
  | KernelArgType.Sampler => arg_value.isNull
  | _ => false

/-- api/kernel.rs, set_kernel_arg: index check, size check, null check,
construction of the stored value (dead arguments always store none), and
replacement of the per-index value cell. -/
def set_kernel_arg (args : List KernelArg) (values : List (Option KernelArgValue))
    (arg_index arg_size : Nat) (arg_value : ArgPtr) :
    Except Int (List (Option KernelArgValue)) :=
  match args.get? arg_index with
  | Option.none => Except.error CL_INVALID_ARG_INDEX
  | Option.some arg =>
    if arg_size_bad arg arg_size then
      Except.error CL_INVALID_ARG_SIZE
    else if arg_value_bad arg arg_value then
      Except.error CL_INVALID_ARG_VALUE
    else
      let newVal :=
        if arg.dead then KernelArgValue.none
        else
          match arg.kind with
          | KernelArgType.Constant => KernelArgValue.constant (arg_value.bytes.take arg_size)
          | KernelArgType.MemConstant | KernelArgType.MemGlobal =>
            if arg_value.isNull then KernelArgValue.none
            else
              match arg_value.memRef with
              | Option.none => KernelArgValue.none
              | Option.some o => KernelArgValue.memObject o
          | KernelArgType.MemLocal => KernelArgValue.localMem arg_size
          | KernelArgType.Sampler => KernelArgValue.sampler
      Except.ok (values.set arg_index (Option.some newVal))

/-- usize::to_ne_bytes on the 64-bit little-endian targets rusticl builds
for: 8 bytes, least significant first. -/
def to_ne_bytes8 (n : Nat) : List Nat :=
  [n % 256, n / 256 % 256, n / 65536 % 256, n / 16777216 % 256,
    n / 4294967296 % 256, n / 1099511627776 % 256, n / 281474976710656 % 256,
    n / 72057594037927936 % 256]

/-- The mutable state of the launch serialization loop: the input byte
buffer, the offsets recorded into resource_info, and the running
local-memory size. -/
structure LaunchState where
  input : List Nat
  resource_offsets : List Nat
  local_size : Nat
deriving DecidableEq, Repr

/-- core/kernel.rs, Kernel::launch, the loop over
self.args.iter().zip(&self.values): dead arguments are skipped entirely;
live ones first pad the buffer with zeros up to their resolved offset, then
append their payload. The two panic paths (the asserted kinds for a none
value, and the unhandled sampler arm) are modelled as Option.none. -/
def launch_input_args : List (KernelArg × KernelArgValue) → LaunchState → Option LaunchState
  | [], st => Option.some st
  | (arg, v) :: rest, st =>
    if arg.dead then launch_input_args rest st
    else
      let inp := st.input ++ List.replicate (arg.offset - st.input.length) 0
      match v with
      | KernelArgValue.constant c =>
        launch_input_args rest ⟨inp ++ c, st.resource_offsets, st.local_size⟩
      | KernelArgValue.memObject o =>
        launch_input_args rest
          ⟨inp ++ to_ne_bytes8 o, st.resource_offsets ++ [arg.offset], st.local_size⟩
      | KernelArgValue.localMem sz =>
        launch_input_args rest ⟨inp ++ List.replicate 8 0, st.resource_offsets,
          st.local_size + sz⟩
      | KernelArgValue.none =>
        if arg.kind == KernelArgType.MemGlobal || arg.kind == KernelArgType.MemConstant then
          launch_input_args rest ⟨inp ++ List.replicate 8 0, st.resource_offsets, st.local_size⟩
        else Option.none
      | KernelArgValue.sampler => Option.none

/-- The serialization loop only ever appends to the input buffer. -/
theorem launch_input_args_prefix :
    ∀ (l : List (KernelArg × KernelArgValue)) (st out : LaunchState),
      launch_input_args l st = Option.some out → ∃ suffix, out.input = st.input ++ suffix := by
  intro l
  induction l with
  | nil =>
    intro st out h
    injection h with h
    exact ⟨[], by simp [h.symm]⟩
  | cons p rest ih =>
    intro st out h
    obtain ⟨arg, v⟩ := p
    unfold launch_input_args at h
    by_cases hd : arg.dead = true
    · rw [if_pos hd] at h
      exact ih st out h
    · rw [if_neg hd] at h
      dsimp only at h
      cases v with
      | constant c =>
        obtain ⟨suffix, hs⟩ := ih _ out h
        exact ⟨List.replicate (arg.offset - st.input.length) 0 ++ c ++ suffix, by
          simp [hs]⟩
      | memObject o =>
        obtain ⟨suffix, hs⟩ := ih _ out h
        exact ⟨List.replicate (arg.offset - st.input.length) 0 ++ to_ne_bytes8 o ++ suffix, by
          simp [hs]⟩
      | localMem sz =>
        obtain ⟨suffix, hs⟩ := ih _ out h
        exact ⟨List.replicate (arg.offset - st.input.length) 0 ++ List.replicate 8 0 ++ suffix,
          by simp [hs]⟩
      | none =>
        by_cases hk : (arg.kind == KernelArgType.MemGlobal
            || arg.kind == KernelArgType.MemConstant) = true
        · rw [if_pos hk] at h
          obtain ⟨suffix, hs⟩ := ih _ out h
          exact ⟨List.replicate (arg.offset - st.input.length) 0 ++ List.replicate 8 0 ++ suffix,
            by simp [hs]⟩
        · rw [if_neg hk] at h
          cases h
      | sampler => cases h

/-- Processing a concatenation processes the two halves in order. -/
theorem launch_input_args_append :
    ∀ (l1 l2 : List (KernelArg × KernelArgValue)) (st : LaunchState),
      launch_input_args (l1 ++ l2) st =
        match launch_input_args l1 st with
        | Option.none => Option.none
        | Option.some m => launch_input_args l2 m := by
  intro l1
  induction l1 with
  | nil => intro l2 st; rfl
  | cons p rest ih =>
    intro l2 st
    obtain ⟨arg, v⟩ := p
    show launch_input_args ((arg, v) :: (rest ++ l2)) st = _
    rw [launch_input_args]
    rw [launch_input_args]
    by_cases hd : arg.dead = true
    · rw [if_pos hd, if_pos hd]
      exact ih l2 st
    · rw [if_neg hd, if_neg hd]
      dsimp only
      cases v with
      | constant c => exact ih l2 _
      | memObject o => exact ih l2 _
      | localMem sz => exact ih l2 _
      | none =>
        by_cases hk : (arg.kind == KernelArgType.MemGlobal
            || arg.kind == KernelArgType.MemConstant) = true
        · rw [if_pos hk, if_pos hk]
          exact ih l2 _
        · rw [if_neg hk, if_neg hk]
      | sampler => rfl

/-- C6: a live value-constant argument of declared size N round-trips: the
set-argument call stores exactly the N bytes read from the pointer, and the
launch serialization places exactly those bytes at the argument's resolved
offset in the input buffer; a dead argument passes set-argument but stores
none, and the serialization loop skips it entirely, placing no bytes. -/
theorem C6_kernel_arg_round_trip :
    (∀ (args : List KernelArg) (values : List (Option KernelArgValue)) (idx : Nat)
        (ptr : ArgPtr) (arg : KernelArg),
      args.get? idx = Option.some arg → arg.kind = KernelArgType.Constant →
      arg.dead = false → ptr.isNull = false →
      set_kernel_arg args values idx arg.size ptr =
        Except.ok (values.set idx (Option.some
          (KernelArgValue.constant (ptr.bytes.take arg.size)))))
    ∧ (∀ (pre post : List (KernelArg × KernelArgValue)) (arg : KernelArg) (c : List Nat)
        (st mid out : LaunchState),
      arg.dead = false →
      launch_input_args pre st = Option.some mid →
      mid.input.length ≤ arg.offset →
      launch_input_args (pre ++ (arg, KernelArgValue.constant c) :: post) st =
        Option.some out →
      (out.input.drop arg.offset).take c.length = c)
    ∧ (∀ (args : List KernelArg) (values : List (Option KernelArgValue)) (idx arg_size : Nat)
        (ptr : ArgPtr) (arg : KernelArg),
      args.get? idx = Option.some arg → arg.dead = true →
      arg_size_bad arg arg_size = false → arg_value_bad arg ptr = false →
      set_kernel_arg args values idx arg_size ptr =
        Except.ok (values.set idx (Option.some KernelArgValue.none)))
    ∧ (∀ (arg : KernelArg) (v : KernelArgValue) (rest : List (KernelArg × KernelArgValue))
        (st : LaunchState),
      arg.dead = true → launch_input_args ((arg, v) :: rest) st = launch_input_args rest st) := by
  refine ⟨?_, ?_, ?_, ?_⟩
  · intro args values idx ptr arg hget hkind hdead hnull
    have h1 : arg_size_bad arg arg.size = false := by
      unfold arg_size_bad
      rw [hkind]
      simp
    have h2 : arg_value_bad arg ptr = false := by
      unfold arg_value_bad
      rw [hkind]
      exact hnull
    have hget2 : args[idx]? = Option.some arg := by
      rw [← List.get?_eq_getElem?]
      exact hget
    simp [set_kernel_arg, hget2, h1, h2, hdead, hkind]
  · intro pre post arg c st mid out hdead hpre hlen hout
    rw [launch_input_args_append] at hout
    rw [hpre] at hout
    dsimp only at hout
    rw [launch_input_args] at hout
    rw [if_neg (by simp [hdead])] at hout
    dsimp only at hout
    obtain ⟨suffix, hs⟩ := launch_input_args_prefix _ _ _ hout
    dsimp only at hs
    have hlen2 : (mid.input ++ List.replicate (arg.offset - mid.input.length) 0).length
        = arg.offset := by
      simp only [List.length_append, List.length_replicate]
      omega
    have hre : out.input =
        (mid.input ++ List.replicate (arg.offset - mid.input.length) 0) ++ (c ++ suffix) := by
      rw [hs, List.append_assoc (mid.input ++ List.replicate (arg.offset - mid.input.length) 0)
        c suffix]
    generalize hA : mid.input ++ List.replicate (arg.offset - mid.input.length) 0 = A
      at hre hlen2
    rw [hre, ← hlen2, List.drop_left, List.take_left]
  · intro args values idx arg_size ptr arg hget hdead hsize hval
    have hget2 : args[idx]? = Option.some arg := by
      rw [← List.get?_eq_getElem?]
      exact hget
    simp [set_kernel_arg, hget2, hsize, hval, hdead]
  · intro arg v rest st hdead
    rw [launch_input_args]
    rw [if_pos hdead]

/-- C6 witness: a live 4-byte constant argument at offset 0 stores and
serializes its 4-byte pattern; a dead argument stores none and contributes
nothing to the buffer. -/
theorem C6_witness :
    set_kernel_arg [⟨KernelArgType.Constant, 4, 0, false⟩] [Option.none] 0 4
        ⟨false, [1, 2, 3, 4, 5], Option.none⟩ =
      Except.ok [Option.some (KernelArgValue.constant [1, 2, 3, 4])]
    ∧ (((⟨[1, 2, 3, 4], [], 0⟩ : LaunchState).input.drop 0).take 4 = [1, 2, 3, 4])
    ∧ set_kernel_arg [⟨KernelArgType.Constant, 4, 0, true⟩] [Option.none] 0 4
        ⟨false, [9, 9, 9, 9], Option.none⟩ =
      Except.ok [Option.some KernelArgValue.none]
    ∧ launch_input_args [(⟨KernelArgType.Constant, 4, 0, true⟩, KernelArgValue.none)]
        ⟨[], [], 0⟩ = launch_input_args [] ⟨[], [], 0⟩ :=
  ⟨C6_kernel_arg_round_trip.1 [⟨KernelArgType.Constant, 4, 0, false⟩] [Option.none] 0
      ⟨false, [1, 2, 3, 4, 5], Option.none⟩ ⟨KernelArgType.Constant, 4, 0, false⟩ rfl rfl rfl rfl,
   C6_kernel_arg_round_trip.2.1 [] [] ⟨KernelArgType.Constant, 4, 0, false⟩ [1, 2, 3, 4]
      ⟨[], [], 0⟩ ⟨[], [], 0⟩ ⟨[1, 2, 3, 4], [], 0⟩ rfl rfl (by decide) (by decide),
   C6_kernel_arg_round_trip.2.2.1 [⟨KernelArgType.Constant, 4, 0, true⟩] [Option.none] 0 4
      ⟨false, [9, 9, 9, 9], Option.none⟩ ⟨KernelArgType.Constant, 4, 0, true⟩ rfl rfl
      (by decide) (by decide),
   C6_kernel_arg_round_trip.2.2.2 ⟨KernelArgType.Constant, 4, 0, true⟩ KernelArgValue.none []
      ⟨[], [], 0⟩ rfl⟩

/-! Rect read/write/copy enqueue validation and pitch resolution
(api/memory.rs, enqueue_read_buffer_rect, enqueue_write_buffer_rect,
enqueue_copy_buffer_rect). -/

/-- The values a read/write rect command captures for its closure. -/
structure RectCmd where
  region : CLVec
  buffer_origin : CLVec
  host_origin : CLVec
  buffer_row_pitch : Nat
  buffer_slice_pitch : Nat
  host_row_pitch : Nat
  host_slice_pitch : Nat
deriving DecidableEq, Repr

/-- Inputs of a read/write rect call after handle resolution. blocking is
the check_cl_bool result (none: not a valid cl_bool); pointer arguments are
none when null; evs_has_error is whether an event of the wait list has a
negative status; ctx_mismatch abstracts the context comparisons. -/
structure RectXferInput where
  blocking : Option Bool
  buf_flags : Nat
  buf_size : Nat
  evs_has_error : Bool
  buffer_origin : Option CLVec
  host_origin : Option CLVec
  region : Option CLVec
  ptr_null : Bool
  ctx_mismatch : Bool
deriving DecidableEq, Repr

/-- api/memory.rs, enqueue_read_buffer_rect. -/
def enqueue_read_buffer_rect (inp : RectXferInput)
    (buffer_row_pitch buffer_slice_pitch host_row_pitch host_slice_pitch : Nat) :
    Except Int RectCmd :=
  match inp.blocking with
  | none => Except.error CL_INVALID_VALUE
  | some block =>
    if bit_check inp.buf_flags (CL_MEM_HOST_WRITE_ONLY ||| CL_MEM_HOST_NO_ACCESS) then
      Except.error CL_INVALID_OPERATION
    else if block && inp.evs_has_error then
      Except.error CL_EXEC_STATUS_ERROR_FOR_EVENTS_IN_WAIT_LIST
    else
      match inp.buffer_origin, inp.host_origin, inp.region, inp.ptr_null with
      | some buf_ori, some host_ori, some r, false =>
        if r.contains0 ∨ (buffer_row_pitch ≠ 0 ∧ buffer_row_pitch < r.v0)
            ∨ (host_row_pitch ≠ 0 ∧ host_row_pitch < r.v0) then
          Except.error CL_INVALID_VALUE
        else
          let buffer_row_pitch := if buffer_row_pitch = 0 then r.v0 else buffer_row_pitch
          let host_row_pitch := if host_row_pitch = 0 then r.v0 else host_row_pitch
          if (buffer_slice_pitch ≠ 0 ∧ buffer_slice_pitch < r.v1 * buffer_row_pitch
                ∧ buffer_slice_pitch % buffer_row_pitch ≠ 0)
              ∨ (host_slice_pitch ≠ 0 ∧ host_slice_pitch < r.v1 * host_row_pitch
                ∧ host_slice_pitch % host_row_pitch ≠ 0) then
            Except.error CL_INVALID_VALUE
          else
            let buffer_slice_pitch :=
              if buffer_slice_pitch = 0 then r.v1 * buffer_row_pitch else buffer_slice_pitch
            let host_slice_pitch :=
              if host_slice_pitch = 0 then r.v1 * host_row_pitch else host_slice_pitch
            if (r.add buf_ori).dot 1 buffer_row_pitch buffer_slice_pitch > inp.buf_size then
              Except.error CL_INVALID_VALUE
            else if inp.ctx_mismatch then
              Except.error CL_INVALID_CONTEXT
            else
              Except.ok ⟨r, buf_ori, host_ori, buffer_row_pitch, buffer_slice_pitch,
                host_row_pitch, host_slice_pitch⟩
      | _, _, _, _ => Except.error CL_INVALID_VALUE

/-- api/memory.rs, enqueue_write_buffer_rect: identical to the read variant
except that the host-access rejection tests CL_MEM_HOST_READ_ONLY and the
closure consumes the same captured values in the opposite direction. -/
def enqueue_write_buffer_rect (inp : RectXferInput)
    (buffer_row_pitch buffer_slice_pitch host_row_pitch host_slice_pitch : Nat) :
    Except Int RectCmd :=
  match inp.blocking with
  | none => Except.error CL_INVALID_VALUE
  | some block =>
    if bit_check inp.buf_flags (CL_MEM_HOST_READ_ONLY ||| CL_MEM_HOST_NO_ACCESS) then
      Except.error CL_INVALID_OPERATION
    else if block && inp.evs_has_error then
      Except.error CL_EXEC_STATUS_ERROR_FOR_EVENTS_IN_WAIT_LIST
    else
      match inp.buffer_origin, inp.host_origin, inp.region, inp.ptr_null with
      | some buf_ori, some host_ori, some r, false =>
        if r.contains0 ∨ (buffer_row_pitch ≠ 0 ∧ buffer_row_pitch < r.v0)
            ∨ (host_row_pitch ≠ 0 ∧ host_row_pitch < r.v0) then
          Except.error CL_INVALID_VALUE
        else
          let buffer_row_pitch := if buffer_row_pitch = 0 then r.v0 else buffer_row_pitch
          let host_row_pitch := if host_row_pitch = 0 then r.v0 else host_row_pitch
          if (buffer_slice_pitch ≠ 0 ∧ buffer_slice_pitch < r.v1 * buffer_row_pitch
                ∧ buffer_slice_pitch % buffer_row_pitch ≠ 0)
              ∨ (host_slice_pitch ≠ 0 ∧ host_slice_pitch < r.v1 * host_row_pitch
                ∧ host_slice_pitch % host_row_pitch ≠ 0) then
            Except.error CL_INVALID_VALUE
          else
            let buffer_slice_pitch :=
              if buffer_slice_pitch = 0 then r.v1 * buffer_row_pitch else buffer_slice_pitch
            let host_slice_pitch :=
              if host_slice_pitch = 0 then r.v1 * host_row_pitch else host_slice_pitch
            if (r.add buf_ori).dot 1 buffer_row_pitch buffer_slice_pitch > inp.buf_size then
              Except.error CL_INVALID_VALUE
            else if inp.ctx_mismatch then
              Except.error CL_INVALID_CONTEXT
            else
              Except.ok ⟨r, buf_ori, host_ori, buffer_row_pitch, buffer_slice_pitch,
                host_row_pitch, host_slice_pitch⟩
      | _, _, _, _ => Except.error CL_INVALID_VALUE

/-- The values a copy rect command captures for its closure. -/
structure CopyRectCmd where
  region : CLVec
  src_origin : CLVec
  dst_origin : CLVec
  src_row_pitch : Nat
  src_slice_pitch : Nat
  dst_row_pitch : Nat
  dst_slice_pitch : Nat
deriving DecidableEq, Repr

/-- Inputs of a copy rect call after handle resolution. same_buffer is the
handle equality src_buffer == dst_buffer; same_parent is
src.has_same_parent(dst); the offsets are the sub-buffer offsets fed to
check_copy_overlap. -/
structure CopyRectInput where
  src_size : Nat
  dst_size : Nat
  src_offset : Nat
  dst_offset : Nat
  same_buffer : Bool
  same_parent : Bool
  ctx_mismatch : Bool
  src_origin : Option CLVec
  dst_origin : Option CLVec
  region : Option CLVec
deriving DecidableEq, Repr

/-- api/memory.rs, enqueue_copy_buffer_rect. -/
def enqueue_copy_buffer_rect (inp : CopyRectInput)
    (src_row_pitch src_slice_pitch dst_row_pitch dst_slice_pitch : Nat) :
    Except Int CopyRectCmd :=
  match inp.src_origin, inp.dst_origin, inp.region with
  | some src_ori, some dst_ori, some r =>
    if r.contains0 ∨ (src_row_pitch ≠ 0 ∧ src_row_pitch < r.v0)
        ∨ (dst_row_pitch ≠ 0 ∧ dst_row_pitch < r.v0) then
      Except.error CL_INVALID_VALUE
    else
      let src_row_pitch := if src_row_pitch = 0 then r.v0 else src_row_pitch
      let dst_row_pitch := if dst_row_pitch = 0 then r.v0 else dst_row_pitch
      if (src_slice_pitch ≠ 0 ∧ src_slice_pitch < r.v1 * src_row_pitch)
          ∨ (dst_slice_pitch ≠ 0 ∧ dst_slice_pitch < r.v1 * dst_row_pitch)
          ∨ (src_slice_pitch ≠ 0 ∧ src_slice_pitch % src_row_pitch ≠ 0)
          ∨ (dst_slice_pitch ≠ 0 ∧ dst_slice_pitch % dst_row_pitch ≠ 0) then
        Except.error CL_INVALID_VALUE
      else
        let src_slice_pitch :=
          if src_slice_pitch = 0 then r.v1 * src_row_pitch else src_slice_pitch
        let dst_slice_pitch :=
          if dst_slice_pitch = 0 then r.v1 * dst_row_pitch else dst_slice_pitch
        if inp.same_buffer ∧ src_slice_pitch ≠ dst_slice_pitch ∧ src_row_pitch ≠ dst_row_pitch
          then
          Except.error CL_INVALID_VALUE
        else if (src_ori.add r).dot 1 src_row_pitch src_slice_pitch > inp.src_size
            ∨ (dst_ori.add r).dot 1 dst_row_pitch dst_slice_pitch > inp.dst_size then
          Except.error CL_INVALID_VALUE
        else if inp.same_parent ∧
            check_copy_overlap src_ori inp.src_offset dst_ori inp.dst_offset r
              src_row_pitch src_slice_pitch = true then
          Except.error CL_MEM_COPY_OVERLAP
        else if inp.ctx_mismatch then
          Except.error CL_INVALID_CONTEXT
        else
          Except.ok ⟨r, src_ori, dst_ori, src_row_pitch, src_slice_pitch, dst_row_pitch,
            dst_slice_pitch⟩
  | _, _, _ => Except.error CL_INVALID_VALUE

/-- C7: for read, write and copy rect requests, passing all pitch arguments
as 0 behaves identically (same accept/reject decision, same error code, same
captured command) to passing row pitch region[0] and slice pitch
region[1]*region[0] explicitly. -/
theorem C7_zero_pitch_defaults :
    (∀ (inp : RectXferInput) (r : CLVec), inp.region = some r →
      enqueue_read_buffer_rect inp 0 0 0 0 =
        enqueue_read_buffer_rect inp r.v0 (r.v1 * r.v0) r.v0 (r.v1 * r.v0))
    ∧ (∀ (inp : RectXferInput) (r : CLVec), inp.region = some r →
      enqueue_write_buffer_rect inp 0 0 0 0 =
        enqueue_write_buffer_rect inp r.v0 (r.v1 * r.v0) r.v0 (r.v1 * r.v0))
    ∧ (∀ (inp : CopyRectInput) (r : CLVec), inp.region = some r →
      enqueue_copy_buffer_rect inp 0 0 0 0 =
        enqueue_copy_buffer_rect inp r.v0 (r.v1 * r.v0) r.v0 (r.v1 * r.v0)) := by
  refine ⟨?_, ?_, ?_⟩
  · intro inp r hr
    obtain ⟨blocking, bflags, bsize, ehas, bo, ho, reg, pn, cm⟩ := inp
    dsimp only at hr
    subst hr
    unfold enqueue_read_buffer_rect
    cases blocking with
    | none => rfl
    | some block =>
      dsimp only
      by_cases hf : bit_check bflags (CL_MEM_HOST_WRITE_ONLY ||| CL_MEM_HOST_NO_ACCESS) = true
      · simp only [if_pos hf]
      · rw [if_neg hf, if_neg hf]
        by_cases he : (block && ehas) = true
        · simp only [if_pos he]
        · rw [if_neg he, if_neg he]
          cases bo with
          | none => rfl
          | some buf_ori =>
            cases ho with
            | none => rfl
            | some host_ori =>
              cases pn with
              | true => rfl
              | false =>
                dsimp only
                simp only [ne_eq, eq_self_iff_true, not_true, ite_true, ite_self, ite_false,
                  lt_self_iff_false, and_false, false_and, and_true, true_and, or_false,
                  false_or, Nat.mul_mod_left]
  · intro inp r hr
    obtain ⟨blocking, bflags, bsize, ehas, bo, ho, reg, pn, cm⟩ := inp
    dsimp only at hr
    subst hr
    unfold enqueue_write_buffer_rect
    cases blocking with
    | none => rfl
    | some block =>
      dsimp only
      by_cases hf : bit_check bflags (CL_MEM_HOST_READ_ONLY ||| CL_MEM_HOST_NO_ACCESS) = true
      · simp only [if_pos hf]
      · rw [if_neg hf, if_neg hf]
        by_cases he : (block && ehas) = true
        · simp only [if_pos he]
        · rw [if_neg he, if_neg he]
          cases bo with
          | none => rfl
          | some buf_ori =>
            cases ho with
            | none => rfl
            | some host_ori =>
              cases pn with
              | true => rfl
              | false =>
                dsimp only
                simp only [ne_eq, eq_self_iff_true, not_true, ite_true, ite_self, ite_false,
                  lt_self_iff_false, and_false, false_and, and_true, true_and, or_false,
                  false_or, Nat.mul_mod_left]
  · intro inp r hr
    obtain ⟨ssize, dsize, soff, doff, sameb, samep, cm, so, dsto, reg⟩ := inp
    dsimp only at hr
    subst hr
    unfold enqueue_copy_buffer_rect
    cases so with
    | none => rfl
    | some src_ori =>
      cases dsto with
      | none => rfl
      | some dst_ori =>
        dsimp only
        simp only [ne_eq, eq_self_iff_true, not_true, ite_true, ite_self, ite_false,
          lt_self_iff_false, and_false, false_and, and_true, true_and, or_false,
          false_or, Nat.mul_mod_left]

/-- C7 witness: region (2,3,4) on a large enough buffer; the zero-pitch call
equals the explicit call with row pitch 2 and slice pitch 6 for all three
operations. -/
theorem C7_witness :
    enqueue_read_buffer_rect ⟨some false, 0, 1000, false, some ⟨0, 0, 0⟩, some ⟨0, 0, 0⟩,
        some ⟨2, 3, 4⟩, false, false⟩ 0 0 0 0 =
      enqueue_read_buffer_rect ⟨some false, 0, 1000, false, some ⟨0, 0, 0⟩, some ⟨0, 0, 0⟩,
        some ⟨2, 3, 4⟩, false, false⟩ 2 6 2 6
    ∧ enqueue_copy_buffer_rect ⟨1000, 1000, 0, 0, false, false, false, some ⟨0, 0, 0⟩,
        some ⟨50, 50, 50⟩, some ⟨2, 3, 4⟩⟩ 0 0 0 0 =
      enqueue_copy_buffer_rect ⟨1000, 1000, 0, 0, false, false, false, some ⟨0, 0, 0⟩,
        some ⟨50, 50, 50⟩, some ⟨2, 3, 4⟩⟩ 2 6 2 6 :=
  ⟨C7_zero_pitch_defaults.1 _ ⟨2, 3, 4⟩ rfl, C7_zero_pitch_defaults.2.2 _ ⟨2, 3, 4⟩ rfl⟩

/-! Command queue and worker loop (core/queue.rs). The rusticl Event type
(core/event.rs) is not part of this source tree; wait, call and
set_user_status are modelled from the spec (section 4.3): a status starts
unset, is set exactly once by the closure result or by dependency-failure
propagation, and wait returns the resolved status. -/

/-- Modelled from the spec: the missing core/event.rs Event, reduced to what
the worker loop consumes — an identity and the recorded dependency list.
The closure is abstracted by the environment run below. -/
structure WEvent where
  id : Nat
  deps : List Nat
deriving DecidableEq, Repr

/-- Modelled from the spec: the worker-visible event state. statuses maps
resolved event ids to their immutable status, in resolution order; log
records, in order, the ids of the events whose closure was invoked. -/
structure WorkerState where
  statuses : List (Nat × Int)
  log : List Nat
deriving DecidableEq, Repr

/-- Modelled from the spec: e.wait() for a dependency — the status this
worker resolved earlier, or the externally resolved status ext d (user
events and other queues are awaited independently). -/
def wait_status (ext : Nat → Int) (st : List (Nat × Int)) (d : Nat) : Int :=
  match st.lookup d with
  | Option.some s => s
  | Option.none => ext d

/-- core/queue.rs line 64: e.deps.iter().map(wait).find(negative) — the
first dependency whose awaited status is negative. -/
def dep_error (ext : Nat → Int) (st : List (Nat × Int)) (e : WEvent) : Option Int :=
  (e.deps.map (wait_status ext st)).find? (fun s => s < 0)

/-- core/queue.rs lines 61-71, one iteration of the worker's batch loop:
wait on all recorded dependencies; if one resolved negatively, set this
event's status to exactly that value (set_user_status) without invoking its
closure; otherwise invoke the closure with the owning queue (e.call, result
run e.id) and record the invocation. -/
def process_event (ext : Nat → Int) (run : Nat → Int) (ws : WorkerState) (e : WEvent) :
    WorkerState :=
  match dep_error ext ws.statuses e with
  | Option.some err => ⟨ws.statuses ++ [(e.id, err)], ws.log⟩
  | Option.none => ⟨ws.statuses ++ [(e.id, run e.id)], ws.log ++ [e.id]⟩

/-- The worker processing one received batch in order. -/
def process_batch (ext : Nat → Int) (run : Nat → Int) (batch : List WEvent) : WorkerState :=
  batch.foldl (process_event ext run) ⟨[], []⟩

/-- The queue's pending list (core/queue.rs, field pending). -/
structure QueueModel where
  pending : List WEvent
deriving DecidableEq, Repr

/-- core/queue.rs, Queue::queue: push onto the pending list; nothing else
happens and the caller never blocks. -/
def Queue.queue (q : QueueModel) (e : WEvent) : QueueModel :=
  ⟨q.pending ++ [e]⟩

/-- core/queue.rs, Queue::flush(wait): remember the last pending event,
drain the entire pending list and send it as a single batch to the worker;
when wait is set, block on exactly that last event (none when the list was
empty). Returns the drained queue, the sent batch, and the event waited
on. -/
def Queue.flush (q : QueueModel) (wait : Bool) :
    QueueModel × List WEvent × Option WEvent :=
  (⟨[]⟩, q.pending, if wait then q.pending.getLast? else Option.none)

/-- Each processed event appends exactly one status entry carrying its id. -/
theorem process_event_statuses (ext run : Nat → Int) (ws : WorkerState) (e : WEvent) :
    ∃ x, (process_event ext run ws e).statuses = ws.statuses ++ [(e.id, x)] := by
  unfold process_event
  cases dep_error ext ws.statuses e <;> exact ⟨_, rfl⟩

/-- Lookup distributes over appended status lists. -/
theorem lookup_append (l1 l2 : List (Nat × Int)) (k : Nat) :
    (l1 ++ l2).lookup k =
      match l1.lookup k with
      | Option.some v => Option.some v
      | Option.none => l2.lookup k := by
  induction l1 with
  | nil => rfl
  | cons p t ih =>
    obtain ⟨a, b⟩ := p
    by_cases hk : k = a
    · subst hk
      simp [List.lookup]
    · have hba : (k == a) = false := beq_eq_false_iff_ne.mpr hk
      simp [List.lookup, hba, ih]

/-- A key absent from a status list looks up to none. -/
theorem lookup_eq_none_of_not_mem (l : List (Nat × Int)) (k : Nat)
    (h : k ∉ l.map Prod.fst) : l.lookup k = Option.none := by
  induction l with
  | nil => rfl
  | cons p t ih =>
    obtain ⟨a, b⟩ := p
    simp only [List.map_cons, List.mem_cons] at h
    push_neg at h
    have hba : (k == a) = false := beq_eq_false_iff_ne.mpr h.1
    simp [List.lookup, hba, ih h.2]

/-- Processing events whose ids avoid k leaves k's status entry alone. -/
theorem foldl_lookup_not_mem (ext run : Nat → Int) :
    ∀ (l : List WEvent) (ws : WorkerState) (k : Nat), k ∉ l.map WEvent.id →
      (l.foldl (process_event ext run) ws).statuses.lookup k = ws.statuses.lookup k := by
  intro l
  induction l with
  | nil => intro ws k _; rfl
  | cons e t ih =>
    intro ws k hk
    simp only [List.map_cons, List.mem_cons] at hk
    push_neg at hk
    rw [List.foldl_cons, ih _ k hk.2]
    obtain ⟨x, hx⟩ := process_event_statuses ext run ws e
    rw [hx, lookup_append]
    have : ([(e.id, x)] : List (Nat × Int)).lookup k = Option.none := by
      simp [List.lookup, beq_eq_false_iff_ne.mpr hk.1]
    cases hws : ws.statuses.lookup k <;> simp [hws, this]

/-- The invocation log grows monotonically and only with processed ids. -/
theorem foldl_log_grows (ext run : Nat → Int) :
    ∀ (l : List WEvent) (ws : WorkerState),
      ∃ tail, (l.foldl (process_event ext run) ws).log = ws.log ++ tail
        ∧ ∀ x ∈ tail, x ∈ l.map WEvent.id := by
  intro l
  induction l with
  | nil => intro ws; exact ⟨[], by simp⟩
  | cons e t ih =>
    intro ws
    rw [List.foldl_cons]
    obtain ⟨tail, ht, hsub⟩ := ih (process_event ext run ws e)
    unfold process_event at ht ⊢
    cases hde : dep_error ext ws.statuses e with
    | some err =>
      rw [hde] at ht
      exact ⟨tail, ht, fun x hx => by simp [hsub x hx]⟩
    | none =>
      rw [hde] at ht
      refine ⟨e.id :: tail, by simpa using ht, ?_⟩
      intro x hx
      rcases List.mem_cons.mp hx with rfl | hx
      · simp
      · simp [hsub x hx]

/-- C1: for every batch and every position i in it, given distinct event
ids: if the dependency scan of the i-th event over the worker state reached
before it finds a negative status, then that exact status — the verbatim
wait() result of one of its recorded dependencies — becomes the event's
final status and its closure is never invoked; otherwise the closure runs
and its result becomes the event's status. -/
theorem C1_worker_dep_propagation (ext run : Nat → Int) (batch : List WEvent) (i : Nat)
    (hi : i < batch.length) (hnd : (batch.map WEvent.id).Nodup) :
    (∀ err : Int,
      dep_error ext (process_batch ext run (batch.take i)).statuses (batch.get ⟨i, hi⟩) =
          Option.some err →
        ((process_batch ext run batch).statuses.lookup (batch.get ⟨i, hi⟩).id =
            Option.some err
          ∧ err < 0
          ∧ (∃ d ∈ (batch.get ⟨i, hi⟩).deps,
              wait_status ext (process_batch ext run (batch.take i)).statuses d = err)
          ∧ (batch.get ⟨i, hi⟩).id ∉ (process_batch ext run batch).log))
    ∧ (dep_error ext (process_batch ext run (batch.take i)).statuses (batch.get ⟨i, hi⟩) =
          Option.none →
        ((process_batch ext run batch).statuses.lookup (batch.get ⟨i, hi⟩).id =
            Option.some (run (batch.get ⟨i, hi⟩).id)
          ∧ (batch.get ⟨i, hi⟩).id ∈ (process_batch ext run batch).log)) := by
  have hsplit : batch = batch.take i ++ batch.get ⟨i, hi⟩ :: batch.drop (i + 1) := by
    rw [List.get_eq_getElem, List.getElem_cons_drop batch i hi, List.take_append_drop]
  have hnd2 : ((batch.take i).map WEvent.id ++ (batch.get ⟨i, hi⟩).id ::
      (batch.drop (i + 1)).map WEvent.id).Nodup := by
    rw [← List.map_cons, ← List.map_append, ← hsplit]
    exact hnd
  have hmid := List.nodup_middle.mp hnd2
  rw [List.nodup_cons, List.mem_append] at hmid
  push_neg at hmid
  obtain ⟨⟨hnotpre, hnotpost⟩, _⟩ := hmid
  have hpre_log := foldl_log_grows ext run (batch.take i) ⟨[], []⟩
  obtain ⟨tail0, ht0, hsub0⟩ := hpre_log
  have hbatch_eq : process_batch ext run batch =
      (batch.drop (i + 1)).foldl (process_event ext run)
        (process_event ext run (process_batch ext run (batch.take i)) (batch.get ⟨i, hi⟩)) := by
    conv_lhs => rw [show process_batch ext run batch =
      (batch.take i ++ batch.get ⟨i, hi⟩ :: batch.drop (i + 1)).foldl
        (process_event ext run) ⟨[], []⟩ from by rw [← hsplit]; rfl]
    rw [List.foldl_append, List.foldl_cons]
    rfl
  have hpre_keys : ∀ k, k ∉ (batch.take i).map WEvent.id →
      (process_batch ext run (batch.take i)).statuses.lookup k = Option.none := by
    intro k hk
    unfold process_batch
    rw [foldl_lookup_not_mem ext run (batch.take i) ⟨[], []⟩ k hk]
    rfl
  constructor
  · intro err hdep
    have hstep : process_event ext run (process_batch ext run (batch.take i))
        (batch.get ⟨i, hi⟩) =
        ⟨(process_batch ext run (batch.take i)).statuses ++ [((batch.get ⟨i, hi⟩).id, err)],
          (process_batch ext run (batch.take i)).log⟩ := by
      unfold process_event
      rw [hdep]
    refine ⟨?_, ?_, ?_, ?_⟩
    · rw [hbatch_eq, hstep,
        foldl_lookup_not_mem ext run (batch.drop (i + 1)) _ _ hnotpost]
      dsimp only
      rw [lookup_append, hpre_keys _ hnotpre]
      simp [List.lookup]
    · have := List.find?_some hdep
      simpa using this
    · have hmem := List.mem_of_find?_eq_some hdep
      obtain ⟨d, hd, hwd⟩ := List.mem_map.mp hmem
      exact ⟨d, hd, hwd⟩
    · rw [hbatch_eq, hstep]
      obtain ⟨tail1, ht1, hsub1⟩ := foldl_log_grows ext run (batch.drop (i + 1))
        ⟨(process_batch ext run (batch.take i)).statuses ++
          [((batch.get ⟨i, hi⟩).id, err)], (process_batch ext run (batch.take i)).log⟩
      rw [ht1]
      dsimp only
      intro hcon
      rcases List.mem_append.mp hcon with hin | hin
      · unfold process_batch at hin
        rw [ht0] at hin
        rcases List.mem_append.mp hin with h0 | h0
        · simp at h0
        · exact hnotpre (hsub0 _ h0)
      · exact hnotpost (hsub1 _ hin)
  · intro hdep
    have hstep : process_event ext run (process_batch ext run (batch.take i))
        (batch.get ⟨i, hi⟩) =
        ⟨(process_batch ext run (batch.take i)).statuses ++
            [((batch.get ⟨i, hi⟩).id, run (batch.get ⟨i, hi⟩).id)],
          (process_batch ext run (batch.take i)).log ++ [(batch.get ⟨i, hi⟩).id]⟩ := by
      unfold process_event
      rw [hdep]
    constructor
    · rw [hbatch_eq, hstep,
        foldl_lookup_not_mem ext run (batch.drop (i + 1)) _ _ hnotpost]
      dsimp only
      rw [lookup_append, hpre_keys _ hnotpre]
      simp [List.lookup]
    · rw [hbatch_eq, hstep]
      obtain ⟨tail1, ht1, hsub1⟩ := foldl_log_grows ext run (batch.drop (i + 1))
        ⟨(process_batch ext run (batch.take i)).statuses ++
            [((batch.get ⟨i, hi⟩).id, run (batch.get ⟨i, hi⟩).id)],
          (process_batch ext run (batch.take i)).log ++ [(batch.get ⟨i, hi⟩).id]⟩
      rw [ht1]
      dsimp only
      simp

/-- C1 witness: a batch of two events where event 1 depends on the external
event 0 which failed with -42: event 1 resolves to exactly -42 and its
closure is never invoked, while independent event 2 runs. -/
theorem C1_witness :
    (process_batch (fun d => if d = 0 then (-42 : Int) else 0) (fun _ => 0)
        [⟨1, [0]⟩, ⟨2, []⟩]).statuses.lookup 1 = Option.some (-42)
    ∧ 1 ∉ (process_batch (fun d => if d = 0 then (-42 : Int) else 0) (fun _ => 0)
        [⟨1, [0]⟩, ⟨2, []⟩]).log := by
  have h := (C1_worker_dep_propagation (fun d => if d = 0 then (-42 : Int) else 0)
    (fun _ => 0) [⟨1, [0]⟩, ⟨2, []⟩] 0 (by decide) (by decide)).1 (-42) (by rfl)
  exact ⟨h.1, h.2.2.2⟩

/-- Enqueuing piles up pending events in order. -/
theorem foldl_queue_pending :
    ∀ (es : List WEvent) (q : QueueModel), (es.foldl Queue.queue q).pending = q.pending ++ es := by
  intro es
  induction es with
  | nil => intro q; simp
  | cons e t ih =>
    intro q
    rw [List.foldl_cons, ih]
    simp [Queue.queue]

/-- Dependency-free batches run their closures in list order. -/
theorem foldl_log_no_deps (ext run : Nat → Int) :
    ∀ (es : List WEvent) (ws : WorkerState), (∀ ev ∈ es, ev.deps = []) →
      (es.foldl (process_event ext run) ws).log = ws.log ++ es.map WEvent.id := by
  intro es
  induction es with
  | nil => intro ws _; simp
  | cons e t ih =>
    intro ws hdeps
    rw [List.foldl_cons]
    have hde : dep_error ext ws.statuses e = Option.none := by
      unfold dep_error
      rw [hdeps e (by simp)]
      rfl
    have hstep : process_event ext run ws e =
        ⟨ws.statuses ++ [(e.id, run e.id)], ws.log ++ [e.id]⟩ := by
      unfold process_event
      rw [hde]
    rw [hstep, ih _ (fun ev hev => hdeps ev (by simp [hev]))]
    simp

/-- C4: Queue::queue only appends the event to the pending list and never
blocks; Queue::flush drains the entire pending list into a single batch,
leaves the queue empty, and with wait set blocks only on the last event of
the drained batch; and the worker invokes the closures of a batch of
mutually independent events in submission (FIFO) order. -/
theorem C4_queue_flush_order (q : QueueModel) (e : WEvent) (es : List WEvent)
    (ext run : Nat → Int) (wait : Bool) :
    (Queue.queue q e).pending = q.pending ++ [e]
    ∧ Queue.flush (es.foldl Queue.queue ⟨[]⟩) wait =
        (⟨[]⟩, es, if wait then es.getLast? else Option.none)
    ∧ ((∀ ev ∈ es, ev.deps = []) → (process_batch ext run es).log = es.map WEvent.id) := by
  refine ⟨rfl, ?_, ?_⟩
  · unfold Queue.flush
    rw [foldl_queue_pending es ⟨[]⟩]
    rfl
  · intro hdeps
    unfold process_batch
    rw [foldl_log_no_deps ext run es ⟨[], []⟩ hdeps]
    rfl

/-- C4 witness: three independent events enqueued into a fresh queue are
flushed as one batch, the flush waits on the last of them, and their
closures run in submission order 1, 2, 3. -/
theorem C4_witness :
    Queue.flush ([⟨1, []⟩, ⟨2, []⟩, ⟨3, []⟩].foldl Queue.queue ⟨[]⟩) true =
        (⟨[]⟩, [⟨1, []⟩, ⟨2, []⟩, ⟨3, []⟩], Option.some ⟨3, []⟩)
    ∧ (process_batch (fun _ => 0) (fun _ => 0) [⟨1, []⟩, ⟨2, []⟩, ⟨3, []⟩]).log = [1, 2, 3] := by
  have h := C4_queue_flush_order ⟨[]⟩ ⟨1, []⟩ [⟨1, []⟩, ⟨2, []⟩, ⟨3, []⟩]
    (fun _ => 0) (fun _ => 0) true
  exact ⟨h.2.1, h.2.2 (by decide)⟩

end Rusticl
